import Mathlib

/-!
Shallow embedding of the DTMF sandbox tooling, centred on
`tools/bursty_noise_overlay.py` (audio I/O validation, bursty noise track
synthesis, SNR calibration and mixing), together with the two filename-token
normalizers from `tools/evaluate_dtmf.py` and `tools/analyse_harmonics.py`.

Machine integers are modelled as `ℤ`/`ℕ`; Python float arithmetic is
modelled as exact arithmetic in a linear ordered field (instantiated at `ℝ`
for the pipeline, where `10 ** (snr_db / 20)` becomes a real power).
Randomness (`random.randint`, `random.gauss`) is modelled as injected
entropy: `randint lo hi` maps an arbitrary natural entropy value into
`[lo, hi]`, and Gaussian draws are arbitrary field values supplied by an
oracle, since `random.gauss` has no range contract.
-/

/-- Model of Python `random.randint lo hi`: an arbitrary entropy value `r`
mapped into the inclusive range `[lo, hi]`.  Every value of the range is
reachable (take `r = v - lo`) and, when `lo ≤ hi`, no value outside it is
produced. -/
def pyRandint (lo hi r : ℕ) : ℕ := lo + r % (hi + 1 - lo)

/-- Model of Python `round` on a float: round half to even (banker's
rounding); away from exact halves it agrees with Mathlib's `round`. -/
def pyRound {α : Type} [LinearOrderedField α] [FloorRing α] (x : α) : ℤ :=
  if x - (⌊x⌋ : α) = 1 / 2 then (if Even ⌊x⌋ then ⌊x⌋ else ⌊x⌋ + 1) else round x

/-- `clamp_int16` from `tools/bursty_noise_overlay.py` (lines 49-50):
`max(-32768, min(32767, int(round(value))))`. -/
def clamp_int16 {α : Type} [LinearOrderedField α] [FloorRing α] (value : α) : ℤ :=
  max (-32768) (min 32767 (pyRound value))

/-- Helper for the burst fill loops: write `f pos` into the track at
positions `start, start+1, ..., start+n-1` (a `for pos in range(start, end)`
loop with `n = end - start` iterations). -/
def fillSeg (f : ℕ → ℤ) : ℕ → ℕ → List ℤ → List ℤ
  | _, 0, out => out
  | start, n + 1, out => fillSeg f (start + 1) n (out.set start (f start))

/-- `fill_white` closure inside `build_noise_track` (lines 59-61): every
position of `[start, stop)` receives `clamp_int16` of a fresh Gaussian draw;
the draws are supplied by the oracle `gauss`, indexed by position. -/
def fill_white {α : Type} [LinearOrderedField α] [FloorRing α]
    (gauss : ℕ → α) (start stop : ℕ) (out : List ℤ) : List ℤ :=
  fillSeg (fun i => clamp_int16 (gauss i)) start (stop - start) out

/-- `fill_from_source` closure inside `build_noise_track` (lines 63-70):
no-op when the source is `None` or empty (`if not noise_source` together with
the redundant `src_len == 0` check); otherwise position `pos` of
`[start, stop)` receives `noise_source[(pos - start) % src_len]`. -/
def fill_from_source (noise_source : Option (List ℤ)) (start stop : ℕ)
    (out : List ℤ) : List ℤ :=
  match noise_source with
  | none => out
  | some src =>
    if src.length = 0 then out
    else fillSeg (fun pos => src.getD ((pos - start) % src.length) 0) start (stop - start) out

/-- Duration-to-samples conversion from line 74:
`int(framerate * dur_ms / 1000)`.  For the magnitudes involved the float
quotient is within `2⁻⁴⁰` of the exact rational, so Python's `int`
truncation coincides with the floor of the exact quotient, i.e. with
truncating natural division. -/
def dur_samples (framerate dur_ms : ℕ) : ℕ := framerate * dur_ms / 1000

/-- Burst placement, one iteration of the loop at lines 72-78: draw
`dur_ms = randint(200, 400)`, convert to samples, skip (`none`) when
`dur_samples <= 0 or dur_samples >= length`, otherwise draw
`start = randint(0, length - dur_samples)` and return
`(dur_ms, start, start + dur_samples)`. -/
def burst_descriptor (length framerate durRand startRand : ℕ) : Option (ℕ × ℕ × ℕ) :=
  let dur_ms := pyRandint 200 400 durRand
  let dur := dur_samples framerate dur_ms
  if dur = 0 ∨ length ≤ dur then none
  else
    let start := pyRandint 0 (length - dur) startRand
    some (dur_ms, start, start + dur)

/-- Entropy consumed by one iteration of the burst loop: the `randint`
entropy for the duration draw, the `randint` entropy for the start draw, and
the Gaussian oracle used by `fill_white`. -/
structure BurstRand (α : Type) where
  durRand : ℕ
  startRand : ℕ
  gauss : ℕ → α

/-- Noise mode: the `"white"` string versus the recorded-source (`"atc"`)
mode of `tools/bursty_noise_overlay.py`. -/
inductive NoiseMode | white | atc
deriving DecidableEq

/-- One iteration of the burst loop (lines 72-82): place a burst (or skip),
then fill it according to the mode. -/
def apply_burst {α : Type} [LinearOrderedField α] [FloorRing α]
    (length framerate : ℕ) (mode : NoiseMode) (noise_source : Option (List ℤ))
    (out : List ℤ) (br : BurstRand α) : List ℤ :=
  match burst_descriptor length framerate br.durRand br.startRand with
  | none => out
  | some (_, start, stop) =>
    match mode with
    | .white => fill_white br.gauss start stop out
    | .atc => fill_from_source noise_source start stop out

/-- `build_noise_track` (lines 53-84): start from an all-zero track of the
requested length, draw `bursts = randint(2, 4)`, and run that many burst
iterations, each consuming its own entropy record `brs k`. -/
def build_noise_track {α : Type} [LinearOrderedField α] [FloorRing α]
    (length framerate : ℕ) (mode : NoiseMode) (noise_source : Option (List ℤ))
    (countRand : ℕ) (brs : ℕ → BurstRand α) : List ℤ :=
  (List.range (pyRandint 2 4 countRand)).foldl
    (fun out k => apply_burst length framerate mode noise_source out (brs k))
    (List.replicate length 0)

/-- Squared-sample accumulator of `rms` (lines 43-45): the loop
`acc += float(s) * float(s)` with exact arithmetic. -/
def rmsSumSq (samples : List ℤ) : ℤ := samples.foldl (fun acc s => acc + s * s) 0

/-- `rms` (lines 40-46): `0.0` on an empty buffer, otherwise
`sqrt(acc / len(samples))`. -/
noncomputable def rms (samples : List ℤ) : ℝ :=
  if samples = [] then 0 else Real.sqrt ((rmsSumSq samples : ℝ) / samples.length)

/-- Epsilon substitution of lines 105-110: a zero RMS is replaced by
`1e-6` (and a warning is printed, modelled separately in `mixCore`). -/
noncomputable def effRms (r : ℝ) : ℝ := if r = 0 then 1e-6 else r

/-- Scale computation of lines 103-113:
`target_noise_rms = base_rms / (10 ** (snr_db / 20))` and
`scale = target_noise_rms / noise_rms`, after epsilon substitution. -/
noncomputable def mixScale (base noise_track : List ℤ) (snr_db : ℝ) : ℝ :=
  (effRms (rms base) / (10 : ℝ) ^ (snr_db / 20)) / effRms (rms noise_track)

/-- Mixing loop of lines 115-117: zip the base with the noise track and
clamp `b + n * scale` into the 16-bit range.  (`zip` truncates to the
shorter of the two buffers.) -/
def mixSamples {α : Type} [LinearOrderedField α] [FloorRing α]
    (base noise_track : List ℤ) (scale : α) : List ℤ :=
  List.zipWith (fun (b n : ℤ) => clamp_int16 ((b : α) + (n : α) * scale)) base noise_track

/-- Header data and payload of a WAV file as `wave.open` exposes them:
channel count, sample width in bytes, frame rate, and the decoded samples. -/
structure WavFile where
  channels : ℕ
  sampwidth : ℕ
  framerate : ℕ
  samples : List ℤ

/-- Errors raised by `tools/bursty_noise_overlay.py`: the two `ValueError`s
of `read_pcm16_mono` (the spec's FormatError) and the two `ValueError`s of
`mix_bursty_noise`'s configuration checks (the spec's ConfigurationError). -/
inductive MixError | notMono | notPcm16 | noisePathRequired | rateMismatch
deriving DecidableEq

/-- Warnings printed to stderr by `mix_bursty_noise` (lines 107 and 110). -/
inductive MixWarning | baseSilent | noiseSilent
deriving DecidableEq

/-- `read_pcm16_mono` (lines 20-29): reject a file that is not mono or not
16-bit (2-byte) PCM, otherwise return the frame rate and the samples. -/
def read_pcm16_mono (w : WavFile) : Except MixError (ℕ × List ℤ) :=
  if w.channels ≠ 1 then .error .notMono
  else if w.sampwidth ≠ 2 then .error .notPcm16
  else .ok (w.framerate, w.samples)

/-- Noise-source resolution of `mix_bursty_noise` (lines 91-99): white mode
keeps `noise_source = None`; recorded-source mode requires a noise path,
loads it, and rejects a sample-rate mismatch with the base. -/
def resolveNoiseSource (framerate : ℕ) (mode : NoiseMode)
    (noiseFile : Option WavFile) : Except MixError (Option (List ℤ)) :=
  match mode with
  | .white => .ok none
  | .atc =>
    match noiseFile with
    | none => .error .noisePathRequired
    | some nf =>
      match read_pcm16_mono nf with
      | .error e => .error e
      | .ok (noise_rate, noise_source) =>
        if noise_rate ≠ framerate then .error .rateMismatch
        else .ok (some noise_source)

/-- Synthesis, calibration and mixing stage of `mix_bursty_noise`
(lines 101-117), after the base and noise source are loaded: build the
noise track, collect the silence warnings, and mix with the computed scale.
The returned triple is (warnings printed, frame rate written, samples
written). -/
noncomputable def mixCore (framerate : ℕ) (base : List ℤ) (snr_db : ℝ)
    (mode : NoiseMode) (noise_source : Option (List ℤ))
    (countRand : ℕ) (brs : ℕ → BurstRand ℝ) : List MixWarning × ℕ × List ℤ :=
  let noise_track := build_noise_track base.length framerate mode noise_source countRand brs
  let warnings :=
    (if rms base = 0 then [MixWarning.baseSilent] else []) ++
      (if rms noise_track = 0 then [MixWarning.noiseSilent] else [])
  (warnings, framerate, mixSamples base noise_track (mixScale base noise_track snr_db))

/-- `mix_bursty_noise` (lines 87-120): load the base, resolve the noise
source, then synthesize and mix.  `.error` models a raised `ValueError`
(nothing is written at `out_path`); `.ok (w, fr, out)` models a run that
printed the warnings `w` and wrote `out` at frame rate `fr`. -/
noncomputable def mix_bursty_noise (baseFile : WavFile) (snr_db : ℝ)
    (mode : NoiseMode) (noiseFile : Option WavFile)
    (countRand : ℕ) (brs : ℕ → BurstRand ℝ) :
    Except MixError (List MixWarning × ℕ × List ℤ) :=
  match read_pcm16_mono baseFile with
  | .error e => .error e
  | .ok (framerate, base) =>
    match resolveNoiseSource framerate mode noiseFile with
    | .error e => .error e
    | .ok noise_source =>
      .ok (mixCore framerate base snr_db mode noise_source countRand brs)

/-- Model of Python `str.replace old new` for a non-empty pattern `old`:
scan left to right, replacing each non-overlapping occurrence and resuming
after the inserted replacement.  (The two patterns used by the repository,
`"star"` and `"hash"`, are non-empty; an empty `old` leaves the string
unchanged here, unlike Python's interleaving behaviour.) -/
def pyReplace (s old new : List Char) : List Char :=
  match s with
  | [] => []
  | c :: rest =>
    if h : old ≠ [] ∧ old.isPrefixOf (c :: rest) then
      new ++ pyReplace ((c :: rest).drop old.length) old new
    else
      c :: pyReplace rest old new
termination_by s.length
decreasing_by
  · have hlen : 0 < old.length := List.length_pos.mpr h.1
    simp only [List.length_drop, List.length_cons]
    omega
  · simp only [List.length_cons]
    omega

namespace EvaluateDtmf

/-- `CODE_REPLACEMENTS` from `tools/evaluate_dtmf.py` (lines 46-49); a
Python dict iterated in insertion order, modelled as an association list. -/
def CODE_REPLACEMENTS : List (List Char × List Char) :=
  [("star".toList, "*".toList), ("hash".toList, "#".toList)]

/-- `normalize_code` from `tools/evaluate_dtmf.py` (lines 52-56): apply each
replacement of `CODE_REPLACEMENTS` in turn. -/
def normalize_code (raw : List Char) : List Char :=
  CODE_REPLACEMENTS.foldl (fun code kv => pyReplace code kv.1 kv.2) raw

end EvaluateDtmf

namespace AnalyseHarmonics

/-- `normalize_code` from `tools/analyse_harmonics.py` (lines 21-23):
`token.replace("star", "*").replace("hash", "#")`. -/
def normalize_code (token : List Char) : List Char :=
  pyReplace (pyReplace token ("star".toList) ("*".toList)) ("hash".toList) ("#".toList)

end AnalyseHarmonics

/-- Second definition for claim C1, following the spec's words: the duration
conversion as the spec sentence states it,
`round(sample_rate * duration_ms / 1000)`, over exact rationals.  This is
compared against the source's truncating `dur_samples`. -/
def round_dur_samples (framerate dur_ms : ℕ) : ℤ :=
  round ((framerate * dur_ms : ℚ) / 1000)

lemma getD_set_self_int (l : List ℤ) (i : ℕ) (a : ℤ) (h : i < l.length) :
    (l.set i a).getD i 0 = a := by
  rw [List.getD_eq_getElem?_getD, List.getElem?_set_self (by simpa using h)]
  rfl

lemma getD_set_ne_int (l : List ℤ) (i j : ℕ) (a : ℤ) (h : i ≠ j) :
    (l.set i a).getD j 0 = l.getD j 0 := by
  rw [List.getD_eq_getElem?_getD, List.getElem?_set_ne h, ← List.getD_eq_getElem?_getD]

lemma fillSeg_length (f : ℕ → ℤ) (start n : ℕ) (out : List ℤ) :
    (fillSeg f start n out).length = out.length := by
  induction n generalizing start out with
  | zero => rfl
  | succ n ih => simp [fillSeg, ih]

lemma fillSeg_getD_of_notin (f : ℕ → ℤ) (start n : ℕ) (out : List ℤ) (i : ℕ)
    (h : i < start ∨ start + n ≤ i) :
    (fillSeg f start n out).getD i 0 = out.getD i 0 := by
  induction n generalizing start out with
  | zero => rfl
  | succ n ih =>
    rw [fillSeg, ih (start + 1) _ (by omega)]
    exact getD_set_ne_int _ _ _ _ (by omega)

lemma fillSeg_getD_mem (f : ℕ → ℤ) (start n : ℕ) (out : List ℤ) (i : ℕ)
    (h1 : start ≤ i) (h2 : i < start + n) (h3 : i < out.length) :
    (fillSeg f start n out).getD i 0 = f i := by
  induction n generalizing start out with
  | zero => omega
  | succ n ih =>
    rw [fillSeg]
    by_cases hi : i = start
    · subst hi
      rw [fillSeg_getD_of_notin _ _ _ _ _ (Or.inl (by omega))]
      exact getD_set_self_int _ _ _ h3
    · exact ih (start + 1) _ (by omega) (by omega) (by simpa using h3)

lemma fill_from_source_length (noise_source : Option (List ℤ)) (start stop : ℕ)
    (out : List ℤ) : (fill_from_source noise_source start stop out).length = out.length := by
  cases noise_source with
  | none => rfl
  | some src =>
    rw [fill_from_source]
    split
    · rfl
    · exact fillSeg_length _ _ _ _

lemma apply_burst_length {α : Type} [LinearOrderedField α] [FloorRing α]
    (length framerate : ℕ) (mode : NoiseMode) (noise_source : Option (List ℤ))
    (out : List ℤ) (br : BurstRand α) :
    (apply_burst length framerate mode noise_source out br).length = out.length := by
  rw [apply_burst]
  cases burst_descriptor length framerate br.durRand br.startRand with
  | none => rfl
  | some d =>
    obtain ⟨dm, s, e⟩ := d
    cases mode with
    | white => exact fillSeg_length _ _ _ _
    | atc => exact fill_from_source_length _ _ _ _

lemma build_noise_track_length {α : Type} [LinearOrderedField α] [FloorRing α]
    (length framerate : ℕ) (mode : NoiseMode) (noise_source : Option (List ℤ))
    (countRand : ℕ) (brs : ℕ → BurstRand α) :
    (build_noise_track length framerate mode noise_source countRand brs).length = length := by
  rw [build_noise_track]
  have key : ∀ (ks : List ℕ) (init : List ℤ),
      (ks.foldl (fun out k => apply_burst length framerate mode noise_source out (brs k)) init).length
        = init.length := by
    intro ks
    induction ks with
    | nil => intro init; rfl
    | cons k ks ih => intro init; rw [List.foldl_cons, ih, apply_burst_length]
  rw [key, List.length_replicate]

lemma pyRandint_le (lo hi r : ℕ) (h : lo ≤ hi) : pyRandint lo hi r ≤ hi := by
  have hm : r % (hi + 1 - lo) < hi + 1 - lo := Nat.mod_lt _ (by omega)
  rw [pyRandint]
  omega

lemma le_pyRandint (lo hi r : ℕ) : lo ≤ pyRandint lo hi r := Nat.le_add_right _ _

lemma zipWith_getD_int (f : ℤ → ℤ → ℤ) (l1 l2 : List ℤ) (i : ℕ)
    (h1 : i < l1.length) (h2 : i < l2.length) :
    (List.zipWith f l1 l2).getD i 0 = f (l1.getD i 0) (l2.getD i 0) := by
  rw [List.getD_eq_getElem?_getD, List.getElem?_zipWith,
    List.getElem?_eq_getElem h1, List.getElem?_eq_getElem h2]
  simp [List.getD_eq_getElem?_getD, List.getElem?_eq_getElem, h1, h2]

/-- C10: the two filename-token normalizers, `normalize_code` in the
evaluation harness (`tools/evaluate_dtmf.py`) and `normalize_code` in the
harmonics reporter (`tools/analyse_harmonics.py`), are extensionally equal:
on every input both perform the replacement of every occurrence of `"star"`
by `"*"` followed by the replacement of every occurrence of `"hash"` by
`"#"`. -/
theorem normalize_code_equiv (s : List Char) :
    EvaluateDtmf.normalize_code s = AnalyseHarmonics.normalize_code s ∧
      EvaluateDtmf.normalize_code s =
        pyReplace (pyReplace s ("star".toList) ("*".toList)) ("hash".toList) ("#".toList) :=
  ⟨rfl, rfl⟩

/-- C6: every burst actually placed satisfies `200 ≤ dur_ms ≤ 400` and
`0 ≤ start < stop ≤ length` (the interval lies fully inside the track), and
the per-call burst count `randint(2, 4)` always lies in `{2, 3, 4}`. -/
theorem burst_invariants (length framerate durRand startRand d s e : ℕ)
    (h : burst_descriptor length framerate durRand startRand = some (d, s, e))
    (countRand : ℕ) :
    (200 ≤ d ∧ d ≤ 400) ∧ s < e ∧ e ≤ length ∧
      (2 ≤ pyRandint 2 4 countRand ∧ pyRandint 2 4 countRand ≤ 4) := by
  rw [burst_descriptor] at h
  split at h
  · exact absurd h (by simp)
  · rename_i hc
    obtain ⟨hd, hs, he⟩ := by simpa using h
    subst hd hs he
    have hdur1 : dur_samples framerate (pyRandint 200 400 durRand) ≠ 0 := fun hz => hc (Or.inl hz)
    have hdur2 : ¬ length ≤ dur_samples framerate (pyRandint 200 400 durRand) :=
      fun hz => hc (Or.inr hz)
    have hstart : pyRandint 0 (length - dur_samples framerate (pyRandint 200 400 durRand)) startRand
        ≤ length - dur_samples framerate (pyRandint 200 400 durRand) :=
      pyRandint_le _ _ _ (Nat.zero_le _)
    refine ⟨⟨le_pyRandint _ _ _, pyRandint_le _ _ _ (by omega)⟩, by omega, by omega,
      le_pyRandint _ _ _, pyRandint_le _ _ _ (by omega)⟩

/-- Witness for C6 at a concrete burst: track length 100000 at 8000 Hz with
zero entropy draws places the burst `(200 ms, [0, 1600))`. -/
theorem burst_invariants_witness :
    burst_descriptor 100000 8000 0 0 = some (200, 0, 1600) ∧
      ((200 ≤ 200 ∧ 200 ≤ 400) ∧ 0 < 1600 ∧ 1600 ≤ 100000 ∧
        (2 ≤ pyRandint 2 4 5 ∧ pyRandint 2 4 5 ≤ 4)) :=
  ⟨by decide, burst_invariants 100000 8000 0 0 200 0 1600 (by decide) 5⟩

/-- C1 counterexample: the claim says the burst length is
`round(sample_rate * duration_ms / 1000)`.  At sample rate 8003 Hz with a
duration draw of 300 ms (entropy 100) the code places a burst of
`int(8003 * 300 / 1000) = 2400` samples, while the rounded value is 2401. -/
theorem burst_length_not_round :
    burst_descriptor 100000 8003 100 0 = some (300, 0, 2400) ∧
      (2400 : ℤ) ≠ round_dur_samples 8003 300 := by
  constructor
  · decide
  · rw [round_dur_samples]
    norm_num [round_eq]

/-- C1 (amended): the burst length in samples equals the truncation
`⌊sample_rate * duration_ms / 1000⌋` (Python `int()` of the float quotient,
here natural division), and the burst is skipped (no descriptor is placed)
exactly when that truncated length is `≤ 0` or `≥` the track length. -/
theorem burst_length_floor (length framerate durRand startRand : ℕ) :
    ((burst_descriptor length framerate durRand startRand).isNone ↔
      (framerate * pyRandint 200 400 durRand / 1000 = 0 ∨
        length ≤ framerate * pyRandint 200 400 durRand / 1000)) ∧
    (∀ d s e, burst_descriptor length framerate durRand startRand = some (d, s, e) →
      e - s = framerate * d / 1000) := by
  constructor
  · rw [burst_descriptor, dur_samples]
    split
    · rename_i hc
      simpa using hc
    · rename_i hc
      simpa using hc
  · intro d s e h
    rw [burst_descriptor] at h
    split at h
    · exact absurd h (by simp)
    · obtain ⟨hd, hs, he⟩ := by simpa using h
      subst hd hs he
      rw [dur_samples]
      omega

/-- Witness for C1 (amended) at the counterexample input: the placed burst
`[0, 2400)` at 8003 Hz and 300 ms has the truncated length `2400`. -/
theorem burst_length_floor_witness : (2400 : ℕ) - 0 = 8003 * 300 / 1000 :=
  (burst_length_floor 100000 8003 100 0).2 300 0 2400 (by decide)

/-- C5: in recorded-source mode a non-empty source fills every burst
position `i ∈ [start, stop)` with `source[(i - start) % source_length]` —
every burst restarts from source index 0, whatever earlier bursts wrote —
and an empty (or absent) source leaves the track untouched, so an
all-recorded-source track built from an empty source is entirely silent. -/
theorem fill_from_source_spec (src out : List ℤ) (start stop i : ℕ) :
    (src ≠ [] → start ≤ i → i < stop → i < out.length →
      (fill_from_source (some src) start stop out).getD i 0 =
        src.getD ((i - start) % src.length) 0) ∧
    fill_from_source (some []) start stop out = out ∧
    fill_from_source none start stop out = out ∧
    (∀ (length framerate countRand : ℕ) (brs : ℕ → BurstRand ℝ),
      build_noise_track length framerate .atc (some []) countRand brs =
        List.replicate length 0) := by
  refine ⟨?_, ?_, rfl, ?_⟩
  · intro hne h1 h2 h3
    have hlen : ¬ src.length = 0 := by simpa [List.length_eq_zero] using hne
    simp only [fill_from_source, if_neg hlen]
    exact fillSeg_getD_mem _ _ _ _ _ h1 (by omega) h3
  · simp [fill_from_source]
  · intro length framerate countRand brs
    rw [build_noise_track]
    have hid : ∀ (out : List ℤ) (k : ℕ),
        apply_burst length framerate .atc (some ([] : List ℤ)) out (brs k) = out := by
      intro out k
      rw [apply_burst]
      cases burst_descriptor length framerate (brs k).durRand (brs k).startRand with
      | none => rfl
      | some d =>
        obtain ⟨dm, s, e⟩ := d
        simp [fill_from_source]
    have key : ∀ (ks : List ℕ) (init : List ℤ),
        ks.foldl (fun out k =>
          apply_burst length framerate .atc (some []) out (brs k)) init = init := by
      intro ks
      induction ks with
      | nil => intro init; rfl
      | cons k ks ih => intro init; rw [List.foldl_cons, hid, ih]
    rw [key]

/-- Witness for C5 at a concrete burst: source `[7, 8]`, burst `[1, 3)` over
a four-sample track, read at position 2, which holds `source[(2-1) % 2]`. -/
theorem fill_from_source_spec_witness :
    (fill_from_source (some [(7 : ℤ), 8]) 1 3 [0, 0, 0, 0]).getD 2 0 =
      ([(7 : ℤ), 8]).getD ((2 - 1) % ([(7 : ℤ), 8]).length) 0 :=
  (fill_from_source_spec [7, 8] [0, 0, 0, 0] 1 3 2).1
    (by decide) (by decide) (by decide) (by decide)

/-- C3: the mixed buffer has exactly as many samples as the base buffer,
for every noise track the synthesizer produces for that base. -/
theorem mixed_length_eq_base (base : List ℤ) (framerate : ℕ) (mode : NoiseMode)
    (noise_source : Option (List ℤ)) (countRand : ℕ) (brs : ℕ → BurstRand ℝ)
    (scale : ℝ) :
    (mixSamples base
        (build_noise_track base.length framerate mode noise_source countRand brs)
        scale).length = base.length := by
  rw [mixSamples, List.length_zipWith, build_noise_track_length, min_self]

/-- C4: `clamp_int16` saturates every real input into `[-32768, 32767]`;
each mixed sample equals `clamp_int16(base[i] + noise_track[i] * scale)` and
therefore lies in `[-32768, 32767]`. -/
theorem mixed_sample_in_range (x : ℝ) (base noise_track : List ℤ) (scale : ℝ) (i : ℕ)
    (hb : i < base.length) (hn : i < noise_track.length) :
    (-32768 ≤ clamp_int16 x ∧ clamp_int16 x ≤ 32767) ∧
      (mixSamples base noise_track scale).getD i 0 =
        clamp_int16 ((base.getD i 0 : ℝ) + (noise_track.getD i 0 : ℝ) * scale) ∧
      -32768 ≤ (mixSamples base noise_track scale).getD i 0 ∧
      (mixSamples base noise_track scale).getD i 0 ≤ 32767 := by
  have hclamp : ∀ y : ℝ, -32768 ≤ clamp_int16 y ∧ clamp_int16 y ≤ 32767 := by
    intro y
    rw [clamp_int16]
    exact ⟨le_max_left _ _, max_le (by norm_num) (min_le_left _ _)⟩
  have hget : (mixSamples base noise_track scale).getD i 0 =
      clamp_int16 ((base.getD i 0 : ℝ) + (noise_track.getD i 0 : ℝ) * scale) := by
    rw [mixSamples]
    exact zipWith_getD_int _ _ _ _ hb hn
  exact ⟨hclamp x, hget, hget ▸ (hclamp _).1, hget ▸ (hclamp _).2⟩

/-- Witness for C4 at a concrete sample: base `[1]`, noise `[2]`, scale 3,
index 0. -/
theorem mixed_sample_in_range_witness :
    0 < ([(1 : ℤ)]).length ∧ 0 < ([(2 : ℤ)]).length ∧
      ((-32768 ≤ clamp_int16 (0 : ℝ) ∧ clamp_int16 (0 : ℝ) ≤ 32767) ∧
        (mixSamples [(1 : ℤ)] [(2 : ℤ)] (3 : ℝ)).getD 0 0 =
          clamp_int16 ((([(1 : ℤ)]).getD 0 0 : ℝ) + (([(2 : ℤ)]).getD 0 0 : ℝ) * 3) ∧
        -32768 ≤ (mixSamples [(1 : ℤ)] [(2 : ℤ)] (3 : ℝ)).getD 0 0 ∧
        (mixSamples [(1 : ℤ)] [(2 : ℤ)] (3 : ℝ)).getD 0 0 ≤ 32767) :=
  ⟨by decide, by decide, mixed_sample_in_range 0 [1] [2] 3 0 (by decide) (by decide)⟩

/-- C2: when both measured RMS values are positive (so the epsilon branch
does not fire), the computed scale is exactly
`(rms base / 10 ^ (snr_db / 20)) / rms noise_track`, for every real
`snr_db`. -/
theorem mix_scale_formula (base noise_track : List ℤ) (snr_db : ℝ)
    (hb : 0 < rms base) (hn : 0 < rms noise_track) :
    mixScale base noise_track snr_db =
      (rms base / (10 : ℝ) ^ (snr_db / 20)) / rms noise_track := by
  rw [mixScale, effRms, effRms, if_neg (ne_of_gt hb), if_neg (ne_of_gt hn)]

lemma rms_singleton (a : ℤ) (h : 0 ≤ a) : rms [a] = (a : ℝ) := by
  rw [rms, if_neg (by simp)]
  have hs : rmsSumSq [a] = a * a := by simp [rmsSumSq]
  rw [hs]
  have h1 : ((a * a : ℤ) : ℝ) / (([a] : List ℤ).length : ℝ) = (a : ℝ) ^ 2 := by
    push_cast
    simp [sq]
  rw [h1, Real.sqrt_sq (by exact_mod_cast h)]

/-- Witness for C2: the spec's own example, `R_b = 1000`, `R_n = 500`,
`snr_db = 0`, gives scale 2. -/
theorem mix_scale_formula_witness :
    0 < rms [(1000 : ℤ)] ∧ 0 < rms [(500 : ℤ)] ∧
      mixScale [(1000 : ℤ)] [(500 : ℤ)] 0 = 2 := by
  have h1 : rms [(1000 : ℤ)] = 1000 := by exact_mod_cast rms_singleton 1000 (by norm_num)
  have h2 : rms [(500 : ℤ)] = 500 := by exact_mod_cast rms_singleton 500 (by norm_num)
  refine ⟨by rw [h1]; norm_num, by rw [h2]; norm_num, ?_⟩
  rw [mix_scale_formula _ _ _ (by rw [h1]; norm_num) (by rw [h2]; norm_num), h1, h2]
  rw [show ((0 : ℝ) / 20) = 0 by norm_num, Real.rpow_zero]
  norm_num

/-- C7: when the base or the synthesized noise track has RMS exactly zero,
the mixer substitutes the epsilon `1e-6` for that RMS, prints the matching
warning, and still completes successfully with a full-length output — the
zero-RMS case is non-fatal. -/
theorem silent_rms_warning (baseFile : WavFile) (snr_db : ℝ) (mode : NoiseMode)
    (noiseFile : Option WavFile) (countRand : ℕ) (brs : ℕ → BurstRand ℝ)
    (framerate : ℕ) (base : List ℤ) (noise_source : Option (List ℤ))
    (hread : read_pcm16_mono baseFile = .ok (framerate, base))
    (hsrc : resolveNoiseSource framerate mode noiseFile = .ok noise_source)
    (hz : rms base = 0 ∨
      rms (build_noise_track base.length framerate mode noise_source countRand brs) = 0) :
    ∃ w out,
      mix_bursty_noise baseFile snr_db mode noiseFile countRand brs
          = .ok (w, framerate, out) ∧
      w ≠ [] ∧
      (rms base = 0 → MixWarning.baseSilent ∈ w ∧ effRms (rms base) = 1e-6) ∧
      (rms (build_noise_track base.length framerate mode noise_source countRand brs) = 0 →
        MixWarning.noiseSilent ∈ w ∧
          effRms (rms (build_noise_track base.length framerate mode noise_source countRand brs))
            = 1e-6) ∧
      out.length = base.length := by
  set track := build_noise_track base.length framerate mode noise_source countRand brs
    with htrack
  refine ⟨(if rms base = 0 then [MixWarning.baseSilent] else []) ++
      (if rms track = 0 then [MixWarning.noiseSilent] else []),
    mixSamples base track (mixScale base track snr_db), ?_, ?_, ?_, ?_, ?_⟩
  · simp only [mix_bursty_noise, hread, hsrc]
    rfl
  · rcases hz with h | h
    · rw [if_pos h]
      simp
    · rw [if_pos h]
      simp
  · intro h
    rw [if_pos h]
    exact ⟨by simp, by rw [effRms, if_pos h]⟩
  · intro h
    rw [if_pos h]
    exact ⟨by simp, by rw [effRms, if_pos h]⟩
  · rw [mixSamples, List.length_zipWith, htrack, build_noise_track_length, min_self]

/-- Witness for C7: a one-sample silent base in white mode; both the base
and the (necessarily empty-burst) noise track are silent. -/
theorem silent_rms_warning_witness :
    rms [(0 : ℤ)] = 0 ∧
      ∃ w out,
        mix_bursty_noise ⟨1, 2, 8000, [(0 : ℤ)]⟩ 0 .white none 0 (fun _ => (⟨0, 0, fun _ => 0⟩ : BurstRand ℝ))
            = .ok (w, 8000, out) ∧
        w ≠ [] ∧
        (rms [(0 : ℤ)] = 0 → MixWarning.baseSilent ∈ w ∧ effRms (rms [(0 : ℤ)]) = 1e-6) ∧
        (rms (build_noise_track ([(0 : ℤ)]).length 8000 .white none 0
              (fun _ => (⟨0, 0, fun _ => 0⟩ : BurstRand ℝ))) = 0 →
          MixWarning.noiseSilent ∈ w ∧
            effRms (rms (build_noise_track ([(0 : ℤ)]).length 8000 .white none 0
              (fun _ => (⟨0, 0, fun _ => 0⟩ : BurstRand ℝ)))) = 1e-6) ∧
        out.length = ([(0 : ℤ)]).length := by
  have h0 : rms [(0 : ℤ)] = 0 := by
    rw [rms, if_neg (by simp)]
    have hs : rmsSumSq [(0 : ℤ)] = 0 := by simp [rmsSumSq]
    rw [hs]
    simp
  exact ⟨h0, silent_rms_warning _ 0 .white none 0 _ 8000 [0] none rfl rfl (Or.inl h0)⟩

/-- C8: in recorded-source mode, a missing noise path or a sample-rate
mismatch makes the run fail with the corresponding configuration
`ValueError`; the failure is decided before any noise track is synthesized
(the result is the same error for every random draw) and nothing is written. -/
theorem config_error_before_synthesis (baseFile : WavFile) (snr_db : ℝ)
    (noiseFile : Option WavFile) (framerate : ℕ) (base : List ℤ)
    (hread : read_pcm16_mono baseFile = .ok (framerate, base))
    (hbad : noiseFile = none ∨
      ∃ nf noise_rate noise_samples, noiseFile = some nf ∧
        read_pcm16_mono nf = .ok (noise_rate, noise_samples) ∧ noise_rate ≠ framerate) :
    ∃ e, (e = MixError.noisePathRequired ∨ e = MixError.rateMismatch) ∧
      resolveNoiseSource framerate .atc noiseFile = .error e ∧
      ∀ (countRand : ℕ) (brs : ℕ → BurstRand ℝ),
        mix_bursty_noise baseFile snr_db .atc noiseFile countRand brs = .error e := by
  have hres : ∃ e, (e = MixError.noisePathRequired ∨ e = MixError.rateMismatch) ∧
      resolveNoiseSource framerate .atc noiseFile = .error e := by
    rcases hbad with h | ⟨nf, noise_rate, noise_samples, hnf, hrd, hne⟩
    · exact ⟨.noisePathRequired, Or.inl rfl, by rw [h]; rfl⟩
    · refine ⟨.rateMismatch, Or.inr rfl, ?_⟩
      rw [hnf]
      simp only [resolveNoiseSource, hrd]
      rw [if_pos hne]
  obtain ⟨e, he, hres⟩ := hres
  refine ⟨e, he, hres, ?_⟩
  intro countRand brs
  simp only [mix_bursty_noise, hread, hres]

/-- Witness for C8: recorded-source mode with no noise file fails with the
missing-path error for every random draw. -/
theorem config_error_before_synthesis_witness :
    read_pcm16_mono ⟨1, 2, 8000, [(0 : ℤ)]⟩ = .ok (8000, [(0 : ℤ)]) ∧
      ∃ e, (e = MixError.noisePathRequired ∨ e = MixError.rateMismatch) ∧
        resolveNoiseSource 8000 .atc none = .error e ∧
        ∀ (countRand : ℕ) (brs : ℕ → BurstRand ℝ),
          mix_bursty_noise ⟨1, 2, 8000, [(0 : ℤ)]⟩ 0 .atc none countRand brs = .error e :=
  ⟨rfl, config_error_before_synthesis _ 0 none 8000 [0] rfl (Or.inl rfl)⟩

/-- C9: loading a file that is not mono or not 16-bit fails with the
corresponding format `ValueError`, no buffer is returned, and any
fixture-generation run that loads this file (as base, or as noise source
after a good base) fails with no output written. -/
theorem format_error_no_output (w : WavFile)
    (hbad : w.channels ≠ 1 ∨ w.sampwidth ≠ 2) :
    ∃ e, (e = MixError.notMono ∨ e = MixError.notPcm16) ∧
      read_pcm16_mono w = .error e ∧
      (∀ (snr_db : ℝ) (mode : NoiseMode) (noiseFile : Option WavFile) (countRand : ℕ)
        (brs : ℕ → BurstRand ℝ),
        mix_bursty_noise w snr_db mode noiseFile countRand brs = .error e) ∧
      (∀ (baseFile : WavFile) (framerate : ℕ) (base : List ℤ) (snr_db : ℝ) (countRand : ℕ)
        (brs : ℕ → BurstRand ℝ), read_pcm16_mono baseFile = .ok (framerate, base) →
        mix_bursty_noise baseFile snr_db .atc (some w) countRand brs = .error e) := by
  have hrd : ∃ e, (e = MixError.notMono ∨ e = MixError.notPcm16) ∧
      read_pcm16_mono w = .error e := by
    by_cases hc : w.channels = 1
    · have hw : w.sampwidth ≠ 2 := by
        rcases hbad with h | h
        · exact absurd hc h
        · exact h
      exact ⟨.notPcm16, Or.inr rfl,
        by rw [read_pcm16_mono, if_neg (by simpa using hc), if_pos hw]⟩
    · exact ⟨.notMono, Or.inl rfl, by rw [read_pcm16_mono, if_pos hc]⟩
  obtain ⟨e, he, hrd⟩ := hrd
  refine ⟨e, he, hrd, ?_, ?_⟩
  · intro snr_db mode noiseFile countRand brs
    rw [mix_bursty_noise, hrd]
  · intro baseFile framerate base snr_db countRand brs hb
    simp only [mix_bursty_noise, hb]
    simp only [resolveNoiseSource, hrd]

/-- Witness for C9: a stereo file (2 channels) is rejected everywhere. -/
theorem format_error_no_output_witness :
    ((⟨2, 2, 8000, []⟩ : WavFile).channels ≠ 1 ∨
        (⟨2, 2, 8000, []⟩ : WavFile).sampwidth ≠ 2) ∧
      ∃ e, (e = MixError.notMono ∨ e = MixError.notPcm16) ∧
        read_pcm16_mono ⟨2, 2, 8000, []⟩ = .error e ∧
        (∀ (snr_db : ℝ) (mode : NoiseMode) (noiseFile : Option WavFile) (countRand : ℕ)
          (brs : ℕ → BurstRand ℝ),
          mix_bursty_noise ⟨2, 2, 8000, []⟩ snr_db mode noiseFile countRand brs = .error e) ∧
        (∀ (baseFile : WavFile) (framerate : ℕ) (base : List ℤ) (snr_db : ℝ) (countRand : ℕ)
          (brs : ℕ → BurstRand ℝ), read_pcm16_mono baseFile = .ok (framerate, base) →
          mix_bursty_noise baseFile snr_db .atc (some ⟨2, 2, 8000, []⟩) countRand brs
            = .error e) :=
  ⟨by decide, format_error_no_output _ (by decide)⟩
